import Mathlib

/-!
# clBLAS client, performance-test and sample harnesses

A shallow embedding of three sources of the clBLAS tree:

* `src/client/clfunc_xsyr.hpp` (the SYR benchmark binding `xSyr<T>`),
* `src/tests/performance/perf-hpmv.cpp` (`HpmvPerformanceTest<ElemType>`),
* `src/samples/example_ctrsm.c` (the stand-alone CTRSM example).

Conventions.  `size_t` is the 64 bit unsigned type: a value is a natural
number and every arithmetic result is reduced modulo `2 ^ 64` at the place
where the C++ expression computes it.  `int` is the 32 bit signed type.  Host
arrays are represented by their element count, device buffers by their byte
length, a NULL pointer or handle by `none`.  Calls into OpenCL and clBLAS are
represented by the record of their arguments; the status each call returns is
supplied by the environment.  An array `new` expression either yields the
array or throws; a function that is left by that exception has an outcome of its
own.
-/

namespace ClBlas

/-! ## Machine arithmetic -/

/-- Reduction of a natural number to `size_t`. -/
def toSizeT (n : Nat) : Nat := n % 2 ^ 64

/-- Conversion of a signed integer to `size_t` (value modulo `2 ^ 64`). -/
def intToSizeT (i : Int) : Nat := (i % 2 ^ 64).toNat

/-- Conversion of an integer to `int` (32 bit two's complement wrap-around). -/
def toInt32 (i : Int) : Int := (i + 2 ^ 31) % 2 ^ 32 - 2 ^ 31

/-- Unsigned product `a * b` in `size_t`. -/
def mulSz (a b : Nat) : Nat := (a * b) % 2 ^ 64

/-- Unsigned sum `a + b` in `size_t`. -/
def addSz (a b : Nat) : Nat := (a + b) % 2 ^ 64

/-- Unsigned difference `a - b` in `size_t` (wraps below zero). -/
def subSz (a b : Nat) : Nat := (a + (2 ^ 64 - b % 2 ^ 64)) % 2 ^ 64

/-- The C library `abs` on `int`, converted to `size_t` as it is when it meets a
`size_t` operand.  `abs(INT_MIN)` is undefined in C; the model gives it the
mathematical absolute value like every other argument. -/
def absSz (i : Int) : Nat := toSizeT i.natAbs

/-- The OpenCL status code of success. -/
def CL_SUCCESS : Int := 0

/-! ## Enumerations of `clBLAS.h` used by the three sources -/

inductive clblasOrder where
  | clblasRowMajor
  | clblasColumnMajor
  deriving DecidableEq, Repr

inductive clblasUplo where
  | clblasUpper
  | clblasLower
  deriving DecidableEq, Repr

/-- Access mode passed to `clCreateBuffer` / `createEnqueueBuffer`. -/
inductive MemFlags where
  | CL_MEM_READ_ONLY
  | CL_MEM_READ_WRITE
  deriving DecidableEq, Repr

/-- A device buffer: its byte length and the access mode it was created with. -/
structure DeviceBuffer where
  bytes : Nat
  flags : MemFlags
  deriving DecidableEq, Repr

/-- A `cl_mem` handle: `none` is the NULL handle. -/
abbrev cl_mem := Option DeviceBuffer

/-- The call `clCreateBuffer(ctx, flags, bytes, NULL, &err)`: the context either
grants a buffer of the requested byte length or returns the NULL handle. -/
def clCreateBuffer (ctx : Nat → Bool) (flags : MemFlags) (bytes : Nat) : cl_mem :=
  if ctx bytes then some ⟨bytes, flags⟩ else none

/-- The expression `new T[count]` for an element type of `sizeofT` bytes: it
throws (`none`) when the byte size `count · sizeof(T)` is not representable in
`size_t` (`std::bad_array_new_length`) or when the host, asked for that many
bytes, refuses (`std::bad_alloc`); otherwise it yields an array of `count`
elements.  `host bytes` tells whether the host grants `bytes` bytes. -/
def newArray (host : Nat → Bool) (sizeofT count : Nat) : Option Nat :=
  if count * sizeofT < 2 ^ 64 ∧ host (count * sizeofT) = true then some count
  else none

/-! ## `src/client/clfunc_xsyr.hpp` -/

/-- The element types `xSyr<T>` is specialised for. -/
inductive SyrElem where
  | cl_float
  | cl_double
  deriving DecidableEq, Repr

/-- The value of `sizeof(T)`. -/
def SyrElem.sizeof : SyrElem → Nat
  | .cl_float => 4
  | .cl_double => 8

/-- The record `xSyrBuffer<T>`.  `alpha` is kept as a value of an arbitrary
scalar type `S`; `cpuX` and `cpuA` are the element counts of the host arrays. -/
structure xSyrBuffer (S : Type) where
  order : clblasOrder
  uplo : clblasUplo
  N : Nat
  alpha : S
  cpuX : Nat
  X : cl_mem
  offx : Nat
  incx : Int
  cpuA : Nat
  A : cl_mem
  offa : Nat
  lda : Nat

/-- The outcome of a member function that may end the process with `exit` or be
left by an exception of `new`. -/
inductive Outcome (α : Type) where
  | exit (code : Nat)
  | throws
  | ok (value : α)

/-- The function `xSyr<T>::setup_buffer`.  The arguments `side_option`,
`diag_option`, `transA_option`, `transB_option`, `N`, `K`, `ldb`, `ldc`,
`offC` and `beta` are accepted and not used by the source, so they have no
counterpart in the result; they are kept in the signature.  The two host
arrays are allocated with `new T[buffer.N]` and `new T[buffer.N * buffer.lda]`,
in this order, after the leading dimension is resolved (`resolved` is `none` in
the `exit(1)` branch). -/
def setup_buffer {S : Type} (T : SyrElem) (ctx : Nat → Bool) (host : Nat → Bool)
    (order_option _side_option uplo_option _diag_option _transA_option
      _transB_option : Int)
    (M _N _K lda _ldb _ldc offA offB _offC : Nat) (alpha _beta : S) :
    Outcome (xSyrBuffer S) :=
  let order := if order_option = 0 then clblasOrder.clblasRowMajor
               else clblasOrder.clblasColumnMajor
  let uplo := if uplo_option = 0 then clblasUplo.clblasUpper
              else clblasUplo.clblasLower
  let bufN := M
  let resolved : Option Nat :=
    if lda = 0 then some bufN
    else if lda < bufN then none
    else some lda
  match resolved with
  | none => Outcome.exit 1
  | some bufLda =>
    match newArray host T.sizeof bufN with
    | none => Outcome.throws
    | some cpuX =>
      match newArray host T.sizeof (mulSz bufN bufLda) with
      | none => Outcome.throws
      | some cpuA =>
        Outcome.ok
          { order := order, uplo := uplo, N := bufN, alpha := alpha,
            offa := offA, offx := offB, incx := 1, lda := bufLda,
            cpuX := cpuX,
            cpuA := cpuA,
            A := clCreateBuffer ctx MemFlags.CL_MEM_READ_ONLY
                   (mulSz (mulSz bufN bufLda) T.sizeof),
            X := clCreateBuffer ctx MemFlags.CL_MEM_READ_WRITE
                   (mulSz bufN T.sizeof) }

/-- Whether `setup_buffer` ended in its `exit(1)` branch. -/
def Outcome.failed {α : Type} : Outcome α → Bool
  | .exit _ => true
  | .throws => false
  | .ok _ => false

/-- Whether `setup_buffer` was left by an exception of `new`. -/
def Outcome.threw {α : Type} : Outcome α → Bool
  | .exit _ => false
  | .throws => true
  | .ok _ => false

/-- The leading dimension stored by a successful `setup_buffer`. -/
def Outcome.storedLda {S : Type} : Outcome (xSyrBuffer S) → Option Nat
  | .exit _ => none
  | .throws => none
  | .ok b => some b.lda

/-- The host array a transfer reads from. -/
inductive SyrHostArray where
  | cpuA
  | cpuX
  deriving DecidableEq, Repr

/-- The arguments of one `clEnqueueWriteBuffer(queue_, buffer, blocking, offset,
cb, ptr, 0, NULL, NULL)` call of `xSyr<T>`; `offset` and `cb` are in bytes and
`hostElems` is the element count of the host array `ptr` points to. -/
structure SyrWrite where
  buffer : cl_mem
  blocking : Bool
  offset : Nat
  cb : Nat
  ptr : SyrHostArray
  hostElems : Nat
  deriving DecidableEq, Repr

/-- The function `xSyr<T>::initialize_gpu_buffer`: the two blocking writes it
enqueues, in order. -/
def initialize_gpu_buffer {S : Type} (T : SyrElem) (buffer : xSyrBuffer S) :
    List SyrWrite :=
  [ { buffer := buffer.A, blocking := true,
      offset := mulSz buffer.offa T.sizeof,
      cb := mulSz (mulSz buffer.N buffer.lda) T.sizeof,
      ptr := SyrHostArray.cpuA, hostElems := buffer.cpuA },
    { buffer := buffer.X, blocking := true,
      offset := 0,
      cb := mulSz buffer.N T.sizeof,
      ptr := SyrHostArray.cpuX, hostElems := buffer.cpuX } ]

/-- The function `xSyr<T>::reset_gpu_write_buffer`: the blocking write it
enqueues. -/
def reset_gpu_write_buffer {S : Type} (T : SyrElem) (buffer : xSyrBuffer S) :
    List SyrWrite :=
  [ { buffer := buffer.A, blocking := true,
      offset := mulSz buffer.offa T.sizeof,
      cb := mulSz (mulSz buffer.N buffer.lda) T.sizeof,
      ptr := SyrHostArray.cpuA, hostElems := buffer.cpuA } ]

/-- The device routines of the SYR family for real element types. -/
inductive SyrRoutine where
  | clblasSsyr
  | clblasDsyr
  deriving DecidableEq, Repr

/-- The arguments of one call of a SYR device routine, in the positional order
of the routine signature: `(order, uplo, N, alpha, X, offx, incx, A, offa, lda,
numCommandQueues, commandQueues, numEventsInWaitList, eventWaitList, events)`.
`commandQueues` is always `&queue_` and `events` always `&event_`;
`eventWaitList` is `none` for the NULL pointer. -/
structure SyrDispatch (S : Type) where
  routine : SyrRoutine
  order : clblasOrder
  uplo : clblasUplo
  N : Nat
  alpha : S
  X : cl_mem
  offx : Nat
  incx : Int
  A : cl_mem
  offa : Nat
  lda : Nat
  numCommandQueues : Nat
  numEventsInWaitList : Nat
  eventWaitList : Option Nat

/-- One step of `xSyr<T>::call_func`. -/
inductive ClientStep (S : Type) where
  | timerStart
  | dispatch (d : SyrDispatch S)
  | clWaitForEvents (numEvents : Nat)
  | timerStop

/-- The two explicit specialisations `xSyr<cl_float>::call_func` and
`xSyr<cl_double>::call_func`, each as the sequence of steps it performs. -/
def call_func {S : Type} : SyrElem → xSyrBuffer S → List (ClientStep S)
  | SyrElem.cl_float, buffer =>
    [ ClientStep.timerStart,
      ClientStep.dispatch
        { routine := SyrRoutine.clblasSsyr,
          order := buffer.order, uplo := buffer.uplo, N := buffer.N,
          alpha := buffer.alpha, X := buffer.X, offx := buffer.offx,
          incx := buffer.incx, A := buffer.A, offa := buffer.offa,
          lda := buffer.lda, numCommandQueues := 1, numEventsInWaitList := 0,
          eventWaitList := none },
      ClientStep.clWaitForEvents 1,
      ClientStep.timerStop ]
  | SyrElem.cl_double, buffer =>
    [ ClientStep.timerStart,
      ClientStep.dispatch
        { routine := SyrRoutine.clblasSsyr,
          order := buffer.order, uplo := buffer.uplo, N := buffer.N,
          alpha := buffer.alpha, X := buffer.X, offx := buffer.offx,
          incx := buffer.incx, A := buffer.A, offa := buffer.offa,
          lda := buffer.lda, numCommandQueues := 1, numEventsInWaitList := 0,
          eventWaitList := none },
      ClientStep.clWaitForEvents 1,
      ClientStep.timerStop ]

/-- The device routine a `call_func` specialisation invokes (the routine of the
first dispatch among its steps). -/
def invokedRoutine {S : Type} : List (ClientStep S) → Option SyrRoutine
  | [] => none
  | ClientStep.dispatch d :: _ => some d.routine
  | _ :: rest => invokedRoutine rest

/-- The device routine of the SYR family whose precision is that of the element
type: single precision for `cl_float`, double precision for `cl_double`. -/
def matchingRoutine : SyrElem → SyrRoutine
  | SyrElem.cl_float => SyrRoutine.clblasSsyr
  | SyrElem.cl_double => SyrRoutine.clblasDsyr

/-! ## `src/tests/performance/perf-hpmv.cpp` -/

/-- The element types `HpmvPerformanceTest<ElemType>` is instantiated with by
the two `TEST_P` cases of the source. -/
inductive ElemType where
  | FloatComplex
  | DoubleComplex
  deriving DecidableEq, Repr

/-- The value of `sizeof(ElemType)`. -/
def ElemType.sizeof : ElemType → Nat
  | .FloatComplex => 8
  | .DoubleComplex => 16

/-- The function tags `runInstance` receives (`FN_OTHER` stands for every other
enumerator of `BlasFunction`). -/
inductive BlasFunction where
  | FN_CHPMV
  | FN_ZHPMV
  | FN_OTHER
  deriving DecidableEq, Repr

/-- The fields of `TestParams` the HPMV performance test reads.  The record
is declared outside the three sources; `N`, `lda` and the offsets are `size_t`
(the source copies `params->N` into a `size_t`), the increments are `int` (the
source passes them to `abs`).  The scalars `alpha` and `beta` only feed the
floating-point data and are not part of the model. -/
structure TestParams where
  order : clblasOrder
  uplo : clblasUplo
  N : Nat
  lda : Nat
  offA : Nat
  offBX : Nat
  offCY : Nat
  incx : Int
  incy : Int
  deriving DecidableEq, Repr

/-- The device description obtained from `BlasBase::getInstance()`, as far as
the HPMV performance test consults it: double-precision support, the two
memory limits, and `grants`, which tells whether the device creates a buffer of
a given byte length. -/
structure BlasBase where
  isDevSupportDoublePrecision : Bool
  availGlobalMemSize : Nat
  maxMemAllocSize : Nat
  grants : Nat → Bool

/-- Modelled from the spec: `BlasBase::createEnqueueBuffer` is declared outside
the three sources.  Device buffer creation takes an access mode and a byte
length and yields an opaque handle or the null handle; the call
`base_->createEnqueueBuffer(host, bytes, 0, flags)` yields a buffer of `bytes`
bytes when the device grants it. -/
def BlasBase.createEnqueueBuffer (base : BlasBase) (bytes : Nat)
    (flags : MemFlags) : cl_mem :=
  if base.grants bytes then some ⟨bytes, flags⟩ else none

/-- The data members of `HpmvPerformanceTest<ElemType>`: the host arrays by
element count (`none` for NULL) and the three device handles. -/
structure HpmvPerformanceTest where
  params_ : TestParams
  AP_ : Option Nat
  X_ : Option Nat
  Y_ : Option Nat
  backY_ : Option Nat
  mobjAP_ : cl_mem
  mobjX_ : cl_mem
  mobjY_ : cl_mem
  deriving DecidableEq, Repr

/-- The member initialisation of the constructor `HpmvPerformanceTest(fn,
params)`: the object it leaves when its four `new ElemType[..]` expressions
return, with their `size_t` element counts and the three handles set to NULL.
Whether the expressions return or throw is decided in `construct`. -/
def HpmvPerformanceTest.ctor (_fn : BlasFunction) (params : TestParams) :
    HpmvPerformanceTest :=
  let params_ := params
  { params_ := params_,
    AP_ := some (addSz (mulSz params_.N (addSz params_.N 1) / 2) params_.offA),
    X_ := some (addSz (addSz 1 (mulSz (subSz params_.N 1) (absSz params_.incx)))
            params_.offBX),
    Y_ := some (addSz (addSz 1 (mulSz (subSz params_.N 1) (absSz params_.incy)))
            params_.offCY),
    backY_ := some (addSz (addSz 1 (mulSz (subSz params_.N 1) (absSz params_.incy)))
            params_.offCY),
    mobjAP_ := none,
    mobjX_ := none,
    mobjY_ := none }

/-- The constructor `HpmvPerformanceTest(fn, params)` with its exceptions: the
four `new ElemType[..]` expressions are evaluated in the order of the source,
each with its `size_t` element count; the constructor is left by the exception
of the first one that throws (`none`), and otherwise returns the object with the
three handles set to NULL. -/
def HpmvPerformanceTest.construct (host : Nat → Bool) (E : ElemType)
    (_fn : BlasFunction) (params : TestParams) : Option HpmvPerformanceTest :=
  let params_ := params
  match newArray host E.sizeof
      (addSz (mulSz params_.N (addSz params_.N 1) / 2) params_.offA) with
  | none => none
  | some AP_ =>
    match newArray host E.sizeof
        (addSz (addSz 1 (mulSz (subSz params_.N 1) (absSz params_.incx)))
          params_.offBX) with
    | none => none
    | some X_ =>
      match newArray host E.sizeof
          (addSz (addSz 1 (mulSz (subSz params_.N 1) (absSz params_.incy)))
            params_.offCY) with
      | none => none
      | some Y_ =>
        match newArray host E.sizeof
            (addSz (addSz 1 (mulSz (subSz params_.N 1) (absSz params_.incy)))
              params_.offCY) with
        | none => none
        | some backY_ =>
          some
            { params_ := params_,
              AP_ := some AP_,
              X_ := some X_,
              Y_ := some Y_,
              backY_ := some backY_,
              mobjAP_ := none,
              mobjX_ := none,
              mobjY_ := none }

/-- The member function `areResourcesSufficient(params)`. -/
def HpmvPerformanceTest.areResourcesSufficient (E : ElemType) (base : BlasBase)
    (self : HpmvPerformanceTest) (params : TestParams) : Bool :=
  let n := toSizeT params.N
  if self.AP_ = none ∨ self.X_ = none ∨ self.Y_ = none ∨ self.backY_ = none then
    false
  else
    let gmemSize := toSizeT base.availGlobalMemSize
    let allocSize := toSizeT base.maxMemAllocSize
    let suff : Bool :=
      decide (mulSz E.sizeof (mulSz n (addSz n 1) / 2) < allocSize) &&
      decide (mulSz (addSz 1 (mulSz (subSz n 1) (absSz params.incx))) E.sizeof
                < allocSize)
    suff &&
      decide (mulSz
          (addSz (addSz (mulSz n (addSz n 1) / 2)
                    (addSz 1 (mulSz (subSz n 1) (absSz params.incx))))
                 (addSz 1 (mulSz (subSz n 1) (absSz params.incy))))
          E.sizeof < gmemSize)

/-- The host arrays of the test. -/
inductive HostArray where
  | AP_
  | X_
  | Y_
  | backY_
  deriving DecidableEq, Repr

/-- One step of `prepare()`: the random fill, the `memcpy` into `backY_` (byte
count) and the three `createEnqueueBuffer` requests (host array, byte length,
offset, access mode). -/
inductive PrepareStep where
  | randomHemvMatrices
  | memcpy (dst src : HostArray) (bytes : Nat)
  | createEnqueueBuffer (host : HostArray) (bytes offset : Nat) (flags : MemFlags)
  deriving DecidableEq, Repr

/-- The result of `prepare()`: the object afterwards, the returned `int` and the
steps performed. -/
structure PrepareResult where
  self : HpmvPerformanceTest
  ret : Int
  steps : List PrepareStep
  deriving DecidableEq, Repr

/-- The member function `prepare()`. -/
def HpmvPerformanceTest.prepare (E : ElemType) (base : BlasBase)
    (self : HpmvPerformanceTest) : PrepareResult :=
  let N := toSizeT self.params_.N
  let lenX := addSz 1 (mulSz (subSz N 1) (absSz self.params_.incx))
  let lenY := addSz 1 (mulSz (subSz N 1) (absSz self.params_.incy))
  let bytesAP :=
    mulSz (addSz (mulSz self.params_.N (addSz self.params_.N 1) / 2) self.params_.offA)
      E.sizeof
  let bytesX := mulSz (addSz lenX self.params_.offBX) E.sizeof
  let bytesY := mulSz (addSz lenY self.params_.offCY) E.sizeof
  let mobjAP_ := base.createEnqueueBuffer bytesAP MemFlags.CL_MEM_READ_ONLY
  let mobjX_ := base.createEnqueueBuffer bytesX MemFlags.CL_MEM_READ_ONLY
  let mobjY_ := base.createEnqueueBuffer bytesY MemFlags.CL_MEM_READ_WRITE
  { self := { self with mobjAP_ := mobjAP_, mobjX_ := mobjX_, mobjY_ := mobjY_ },
    ret := if mobjAP_ ≠ none ∧ mobjX_ ≠ none ∧ mobjY_ ≠ none then 0 else -1,
    steps :=
      [ PrepareStep.randomHemvMatrices,
        PrepareStep.memcpy HostArray.backY_ HostArray.Y_
          (mulSz (addSz lenY self.params_.offCY) E.sizeof),
        PrepareStep.createEnqueueBuffer HostArray.AP_ bytesAP 0
          MemFlags.CL_MEM_READ_ONLY,
        PrepareStep.createEnqueueBuffer HostArray.X_ bytesX 0
          MemFlags.CL_MEM_READ_ONLY,
        PrepareStep.createEnqueueBuffer HostArray.Y_ bytesY 0
          MemFlags.CL_MEM_READ_WRITE ] }

/-- The byte length `prepare()` requests for the device buffer filled from the
host array `host` (the first such request among the steps). -/
def requestedBytes (host : HostArray) : List PrepareStep → Option Nat
  | [] => none
  | PrepareStep.createEnqueueBuffer h bytes _ _ :: rest =>
    if h = host then some bytes else requestedBytes host rest
  | _ :: rest => requestedBytes host rest

/-- What `runInstance` does that is visible to the test run: the exception of the
constructor of `perfCase`, the two skip messages, the call of `run`, and the two
gtest checks with their verdicts. -/
inductive RunEvent where
  | constructorThrows
  | warnNoDoublePrecision
  | skipInsufficientResources
  | run (opFactor : Int)
  | assertGE (passed : Bool)
  | expectEQ (passed : Bool)
  deriving DecidableEq, Repr

/-- The result of `runInstance`: the test object when the function returns
(`none` when the constructor threw and no object exists) and the events in
order. -/
structure RunResult where
  perfCase : Option HpmvPerformanceTest
  events : List RunEvent
  deriving DecidableEq, Repr

/-- The static member function `runInstance(fn, params)`.  The object `perfCase`
is constructed first; when its constructor throws, the function is left by the
exception before either skip test.  The inherited `PerformanceTest::run` is
declared outside the three sources and is taken as the parameter `run`: from
the object and `opFactor` it yields the object afterwards and the returned
`int`.  A failed `ASSERT_GE` returns from the function, a failed `EXPECT_EQ`
does not. -/
def HpmvPerformanceTest.runInstance (host : Nat → Bool) (E : ElemType)
    (base : BlasBase)
    (run : HpmvPerformanceTest → Int → HpmvPerformanceTest × Int)
    (fn : BlasFunction) (params : TestParams) : RunResult :=
  match HpmvPerformanceTest.construct host E fn params with
  | none => { perfCase := none, events := [RunEvent.constructorThrows] }
  | some perfCase =>
    let opFactor : Int := 1
    if fn = BlasFunction.FN_ZHPMV ∧ base.isDevSupportDoublePrecision = false then
      { perfCase := some perfCase, events := [RunEvent.warnNoDoublePrecision] }
    else if perfCase.areResourcesSufficient E base params = false then
      { perfCase := some perfCase, events := [RunEvent.skipInsufficientResources] }
    else
      let after := run perfCase opFactor
      let ret := after.2
      if ret < 0 then
        { perfCase := some after.1,
          events := [RunEvent.run opFactor, RunEvent.assertGE false] }
      else
        { perfCase := some after.1,
          events := [RunEvent.run opFactor, RunEvent.assertGE true,
                     RunEvent.expectEQ (decide (0 = ret))] }

/-- The arguments of one `clMath::clblas::hpmv` dispatch of `clblasPerfSingle`, in
the order of the call: `(order, uplo, N, alpha, AP, offA, X, offBX, incx, beta, Y,
offCY, incy, numCommandQueues, &queue, numEventsInWaitList, NULL, &event)`; the
scalars are not part of the model. -/
structure HpmvDispatch where
  order : clblasOrder
  uplo : clblasUplo
  N : Nat
  AP : cl_mem
  offA : Nat
  X : cl_mem
  offBX : Nat
  incx : Int
  Y : cl_mem
  offCY : Nat
  incy : Int
  numCommandQueues : Nat
  numEventsInWaitList : Nat
  deriving DecidableEq, Repr

/-- One step of `clblasPerfSingle`: a device call with its arguments, or a read
of the host clock.  `clEnqueueWriteBuffer buffer blocking offset cb ptr` has
`offset` and `cb` in bytes. -/
inductive PerfStep where
  | clEnqueueWriteBuffer (buffer : cl_mem) (blocking : Bool) (offset cb : Nat)
      (ptr : HostArray)
  | clWaitForEvents (numEvents : Nat)
  | getCurrentTime
  | hpmv (d : HpmvDispatch)
  | clFinish
  deriving DecidableEq, Repr

/-- The status codes the device returns to one call of `clblasPerfSingle`:
`hpmv i` is the status of the dispatch of loop iteration `i` (counted from 1 as
the loop variable is). -/
structure DeviceStatuses where
  clEnqueueWriteBuffer : Int
  clWaitForEvents : Int
  hpmv : Nat → Int
  clFinish : Int

/-- The result of `clblasPerfSingle`: the returned `nano_time_t` and the steps
performed, in order. -/
structure PerfResult where
  time : Nat
  steps : List PerfStep
  deriving DecidableEq, Repr

/-- The loop `for (int i = 1; i <= iter; i++)` of `clblasPerfSingle`, with
`remaining = iter + 1 - i` iterations still to run and `steps` performed so far.
Yields `false` when a dispatch returned a status other than `CL_SUCCESS` (the
function then returns `NANOTIME_ERR`). -/
def dispatchLoop (st : DeviceStatuses) (d : HpmvDispatch) :
    Nat → Nat → List PerfStep → Bool × List PerfStep
  | 0, _, steps => (true, steps)
  | remaining + 1, i, steps =>
    let status := st.hpmv i
    if status ≠ CL_SUCCESS then
      (false, steps ++ [PerfStep.hpmv d])
    else
      dispatchLoop st d remaining (i + 1) (steps ++ [PerfStep.hpmv d])

/-- The member function `clblasPerfSingle()` as compiled, that is with the macro
`TIMING` set.  `NANOTIME_ERR` is a constant declared outside the three sources
and is a parameter; `t0` and `t1` are the two readings of `getCurrentTime()`;
`nano_time_t` is an unsigned 64 bit integer. -/
def HpmvPerformanceTest.clblasPerfSingle (NANOTIME_ERR : Nat) (E : ElemType)
    (self : HpmvPerformanceTest) (st : DeviceStatuses) (t0 t1 : Nat) : PerfResult :=
  let lenY : Int :=
    toInt32 (addSz 1 (mulSz (subSz self.params_.N 1) (absSz self.params_.incy)) : Nat)
  let reset :=
    PerfStep.clEnqueueWriteBuffer self.mobjY_ true 0
      (mulSz (addSz (intToSizeT lenY) self.params_.offCY) E.sizeof) HostArray.backY_
  if st.clEnqueueWriteBuffer ≠ CL_SUCCESS then
    { time := NANOTIME_ERR, steps := [reset] }
  else if st.clWaitForEvents ≠ CL_SUCCESS then
    { time := NANOTIME_ERR, steps := [reset, PerfStep.clWaitForEvents 1] }
  else
    let time := toSizeT t0
    let iter := 20
    let d : HpmvDispatch :=
      { order := self.params_.order, uplo := self.params_.uplo, N := self.params_.N,
        AP := self.mobjAP_, offA := self.params_.offA,
        X := self.mobjX_, offBX := self.params_.offBX, incx := self.params_.incx,
        Y := self.mobjY_, offCY := self.params_.offCY, incy := self.params_.incy,
        numCommandQueues := 1, numEventsInWaitList := 0 }
    let looped :=
      dispatchLoop st d iter 1
        [reset, PerfStep.clWaitForEvents 1, PerfStep.getCurrentTime]
    if looped.1 = false then
      { time := NANOTIME_ERR, steps := looped.2 }
    else
      let time := subSz (toSizeT t1) time
      let time := time / iter
      { time := time, steps := looped.2 ++ [PerfStep.clFinish, PerfStep.getCurrentTime] }

/-- Whether a step is a call to the device (everything except the clock). -/
def PerfStep.isDeviceCall : PerfStep → Bool
  | .getCurrentTime => false
  | _ => true

/-- Whether a step is an hpmv dispatch. -/
def PerfStep.isDispatch : PerfStep → Bool
  | .hpmv _ => true
  | _ => false

/-- Whether a step is a write into a device buffer. -/
def PerfStep.isWrite : PerfStep → Bool
  | .clEnqueueWriteBuffer _ _ _ _ _ => true
  | _ => false

/-- The device commands among the steps, in order. -/
def deviceCommands (steps : List PerfStep) : List PerfStep :=
  steps.filter PerfStep.isDeviceCall

/-- Reading a command sequence from the left: `armed` tells whether the write
`reset` has been seen since the last dispatch; every dispatch must find it so
and consumes it. -/
def resetBeforeEachFrom (reset : PerfStep) : Bool → List PerfStep → Bool
  | _, [] => true
  | armed, c :: rest =>
    if c.isDispatch then armed && resetBeforeEachFrom reset false rest
    else if c = reset then resetBeforeEachFrom reset true rest
    else resetBeforeEachFrom reset armed rest

/-- Every dispatch of the command sequence is preceded by the write `reset` with
no other dispatch in between. -/
def resetBeforeEachDispatch (reset : PerfStep) (cmds : List PerfStep) : Bool :=
  resetBeforeEachFrom reset false cmds

/-- The number of hpmv dispatches among the steps. -/
def dispatchCount (steps : List PerfStep) : Nat :=
  (steps.filter PerfStep.isDispatch).length

/-- The number of buffer writes among the steps. -/
def writeCount (steps : List PerfStep) : Nat :=
  (steps.filter PerfStep.isWrite).length

/-! ## `src/samples/example_ctrsm.c` -/

/-- The OpenCL and clBLAS calls of `main`, one constructor per call site. -/
inductive CtrsmCall where
  | clGetPlatformIDs
  | clGetDeviceIDs
  | clCreateContext
  | clCreateCommandQueue
  | clblasSetup
  | clCreateBufferA
  | clCreateBufferB
  | clEnqueueWriteBufferA
  | clEnqueueWriteBufferB
  | clblasCtrsm
  | clWaitForEvents
  | clEnqueueReadBuffer
  | clReleaseEvent
  | clReleaseMemObjectB
  | clReleaseMemObjectA
  | clblasTeardown
  | clReleaseCommandQueue
  | clReleaseContext
  deriving DecidableEq, Repr

/-- The result of `main`: the exit code and the calls made, in order. -/
structure MainResult where
  exitCode : Int
  calls : List CtrsmCall
  deriving DecidableEq, Repr

/-- The function `main` of `example_ctrsm.c`; `status c` is the status code the
call `c` returns.  The local `err` is threaded as the source assigns it. -/
def main (status : CtrsmCall → Int) : MainResult :=
  let ret : Int := 0
  let err := status .clGetPlatformIDs
  if err ≠ CL_SUCCESS then
    { exitCode := 1, calls := [.clGetPlatformIDs] }
  else
  let err := status .clGetDeviceIDs
  if err ≠ CL_SUCCESS then
    { exitCode := 1, calls := [.clGetPlatformIDs, .clGetDeviceIDs] }
  else
  let err := status .clCreateContext
  if err ≠ CL_SUCCESS then
    { exitCode := 1, calls := [.clGetPlatformIDs, .clGetDeviceIDs, .clCreateContext] }
  else
  let err := status .clCreateCommandQueue
  if err ≠ CL_SUCCESS then
    { exitCode := 1,
      calls := [.clGetPlatformIDs, .clGetDeviceIDs, .clCreateContext,
                .clCreateCommandQueue, .clReleaseContext] }
  else
  let err := status .clblasSetup
  if err ≠ CL_SUCCESS then
    { exitCode := 1,
      calls := [.clGetPlatformIDs, .clGetDeviceIDs, .clCreateContext,
                .clCreateCommandQueue, .clblasSetup, .clReleaseCommandQueue,
                .clReleaseContext] }
  else
  let _err := status .clCreateBufferA
  let _err := status .clCreateBufferB
  let _err := status .clEnqueueWriteBufferA
  let _err := status .clEnqueueWriteBufferB
  let setup : List CtrsmCall :=
    [.clGetPlatformIDs, .clGetDeviceIDs, .clCreateContext, .clCreateCommandQueue,
     .clblasSetup, .clCreateBufferA, .clCreateBufferB, .clEnqueueWriteBufferA,
     .clEnqueueWriteBufferB, .clblasCtrsm]
  let release : List CtrsmCall :=
    [.clReleaseEvent, .clReleaseMemObjectB, .clReleaseMemObjectA, .clblasTeardown,
     .clReleaseCommandQueue, .clReleaseContext]
  let err := status .clblasCtrsm
  if err ≠ CL_SUCCESS then
    let ret : Int := 1
    { exitCode := ret, calls := setup ++ release }
  else
    let _err := status .clWaitForEvents
    let _err := status .clEnqueueReadBuffer
    { exitCode := ret,
      calls := setup ++ [.clWaitForEvents, .clEnqueueReadBuffer] ++ release }

/-! ## Reference quantities of the specification -/

/-- The logical minimum `N·(N+1)/2` of a packed operand, as a natural number. -/
def packedElems (N : Nat) : Nat := N * (N + 1) / 2

/-- The extent `1 + (N-1)·|inc|` of a vector operand, as a natural number (for
`N ≥ 1`). -/
def vectorElems (N : Nat) (inc : Int) : Nat := 1 + (N - 1) * inc.natAbs

/-- The element count of a host array (0 for NULL). -/
def hostLen (a : Option Nat) : Nat := a.getD 0

/-- None of the `size_t` computations of the constructor wraps around for these
parameters. -/
def NoWrap (p : TestParams) : Prop :=
  p.N * (p.N + 1) < 2 ^ 64 ∧
  packedElems p.N + p.offA < 2 ^ 64 ∧
  vectorElems p.N p.incx + p.offBX < 2 ^ 64 ∧
  vectorElems p.N p.incy + p.offCY < 2 ^ 64

instance (p : TestParams) : Decidable (NoWrap p) := by
  unfold NoWrap; infer_instance

/-! ## Concrete inputs -/

/-- Parameters with a long stride on `Y`: `N = 2`, `incx = 1`, `incy = 5`, no
offsets. -/
def strideParams : TestParams :=
  { order := clblasOrder.clblasColumnMajor, uplo := clblasUplo.clblasUpper,
    N := 2, lda := 0, offA := 0, offBX := 0, offCY := 0, incx := 1, incy := 5 }

/-- A device with 1000 bytes of global memory that allocates at most 32 bytes at
once, and grants exactly the requests within that limit. -/
def smallDevice : BlasBase :=
  { isDevSupportDoublePrecision := true, availGlobalMemSize := 1000,
    maxMemAllocSize := 32, grants := fun bytes => decide (bytes ≤ 32) }

/-- Parameters `N = 4`, unit strides, no offsets. -/
def unitParams : TestParams :=
  { order := clblasOrder.clblasColumnMajor, uplo := clblasUplo.clblasUpper,
    N := 4, lda := 0, offA := 0, offBX := 0, offCY := 0, incx := 1, incy := 1 }

/-- A device large enough for `unitParams`. -/
def largeDevice : BlasBase :=
  { isDevSupportDoublePrecision := true, availGlobalMemSize := 2 ^ 30,
    maxMemAllocSize := 2 ^ 28, grants := fun bytes => decide (bytes ≤ 2 ^ 28) }

/-- The test object for `unitParams` after `prepare()` on `largeDevice`. -/
def preparedCase : HpmvPerformanceTest :=
  (HpmvPerformanceTest.prepare ElemType.FloatComplex largeDevice
    (HpmvPerformanceTest.ctor BlasFunction.FN_CHPMV unitParams)).self

/-- Every device call succeeds. -/
def allSucceed : DeviceStatuses :=
  { clEnqueueWriteBuffer := 0, clWaitForEvents := 0, hpmv := fun _ => 0,
    clFinish := 0 }

/-- Every device call succeeds except the final `clFinish`, which returns
`CL_INVALID_COMMAND_QUEUE` (-36). -/
def finishFails : DeviceStatuses :=
  { clEnqueueWriteBuffer := 0, clWaitForEvents := 0, hpmv := fun _ => 0,
    clFinish := -36 }

/-- Every call of the CTRSM example succeeds except `clWaitForEvents`, which
returns `CL_EXEC_STATUS_ERROR_FOR_EVENTS_IN_WAIT_LIST` (-14). -/
def waitFails : CtrsmCall → Int :=
  fun c => if c = CtrsmCall.clWaitForEvents then -14 else 0

/-- Column-major, upper-triangular parameters with `lda = 0` and the given
dimension, offsets and increments. -/
def hpmvParams (N offA offBX offCY : Nat) (incx incy : Int) : TestParams :=
  { order := clblasOrder.clblasColumnMajor, uplo := clblasUplo.clblasUpper,
    N := N, lda := 0, offA := offA, offBX := offBX, offCY := offCY,
    incx := incx, incy := incy }

/-- The byte length of the packed operand as a natural number:
`N·(N+1)/2 · sizeof(ElemType)`. -/
def packedBytes (E : ElemType) (N : Nat) : Nat := packedElems N * E.sizeof

/-- The byte length of a vector operand as a natural number:
`(1 + (N-1)·|inc|) · sizeof(ElemType)`, for `N ≥ 1`. -/
def vectorBytes (E : ElemType) (N : Nat) (inc : Int) : Nat :=
  vectorElems N inc * E.sizeof

/-- The total byte length of the three operands as a natural number, for
`N ≥ 1`. -/
def totalBytes (E : ElemType) (N : Nat) (incx incy : Int) : Nat :=
  (packedElems N + vectorElems N incx + vectorElems N incy) * E.sizeof

/-- The extent `1 + (N-1)·|inc|` as an integer, with no truncation at
`N = 0`. -/
def vectorElemsInt (N : Nat) (inc : Int) : Int := 1 + ((N : Int) - 1) * |inc|

/-- The total byte length of the three operands as an integer, with no
truncation at `N = 0`. -/
def totalBytesInt (E : ElemType) (N : Nat) (incx incy : Int) : Int :=
  ((packedElems N : Int) + vectorElemsInt N incx + vectorElemsInt N incy)
    * (E.sizeof : Int)

/-- A device with `2 ^ 37` bytes of global memory and a maximum single
allocation of `2 ^ 36` bytes. -/
def wideDevice : BlasBase :=
  { isDevSupportDoublePrecision := true, availGlobalMemSize := 2 ^ 37,
    maxMemAllocSize := 2 ^ 36, grants := fun bytes => decide (bytes ≤ 2 ^ 36) }

/-- A device with 1000 bytes of global memory and a maximum single allocation
of 1000 bytes. -/
def thousandDevice : BlasBase :=
  { isDevSupportDoublePrecision := true, availGlobalMemSize := 1000,
    maxMemAllocSize := 1000, grants := fun bytes => decide (bytes ≤ 1000) }

/-- All four host arrays of the test object are non-NULL. -/
def HpmvPerformanceTest.hostArraysNonNull (self : HpmvPerformanceTest) : Prop :=
  self.AP_ ≠ none ∧ self.X_ ≠ none ∧ self.Y_ ≠ none ∧ self.backY_ ≠ none

instance (self : HpmvPerformanceTest) : Decidable self.hostArraysNonNull := by
  unfold HpmvPerformanceTest.hostArraysNonNull; infer_instance

/-- The blocking write of `backY_` into `mobjY_` that resets the operand `Y`:
offset 0 and `(lenY + offCY) · sizeof(ElemType)` bytes, with `lenY` the `int`
local of `clblasPerfSingle`. -/
def resetWrite (E : ElemType) (self : HpmvPerformanceTest) : PerfStep :=
  PerfStep.clEnqueueWriteBuffer self.mobjY_ true 0
    (mulSz
      (addSz
        (intToSizeT (toInt32
          (addSz 1 (mulSz (subSz self.params_.N 1) (absSz self.params_.incy)) : Nat)))
        self.params_.offCY)
      E.sizeof)
    HostArray.backY_

/-- The hpmv dispatch of `clblasPerfSingle` for the test object. -/
def perfDispatch (self : HpmvPerformanceTest) : PerfStep :=
  PerfStep.hpmv
    { order := self.params_.order, uplo := self.params_.uplo, N := self.params_.N,
      AP := self.mobjAP_, offA := self.params_.offA,
      X := self.mobjX_, offBX := self.params_.offBX, incx := self.params_.incx,
      Y := self.mobjY_, offCY := self.params_.offCY, incy := self.params_.incy,
      numCommandQueues := 1, numEventsInWaitList := 0 }

/-- The buffer record of a successful `setup_buffer` (`none` after `exit`). -/
def Outcome.buffer? {S : Type} : Outcome (xSyrBuffer S) → Option (xSyrBuffer S)
  | .exit _ => none
  | .throws => none
  | .ok b => some b

/-- The byte range `[offset, offset + cb)` of a write lies inside the device
buffer it addresses (never so for the NULL handle). -/
def SyrWrite.insideDevice (w : SyrWrite) : Bool :=
  match w.buffer with
  | none => false
  | some b => decide (w.offset + w.cb ≤ b.bytes)

/-- The `cb` bytes a write reads from the start of its host array lie inside
that array. -/
def SyrWrite.insideHost (T : SyrElem) (w : SyrWrite) : Bool :=
  decide (w.cb ≤ w.hostElems * T.sizeof)

/-- The write of operand `A` among the writes of a transfer function (the first
one that reads `cpuA`). -/
def writeOfA : List SyrWrite → Option SyrWrite
  | [] => none
  | w :: rest => if w.ptr = SyrHostArray.cpuA then some w else writeOfA rest

/-- The call `setup_buffer` of `xSyr<cl_float>` with `M = 4`, `lda = 0` and
`offA = 1` on a context and a host that grant every request; `alpha` is kept as
the natural number 10. -/
def offsetSetup : Outcome (xSyrBuffer Nat) :=
  setup_buffer SyrElem.cl_float (fun _ => true) (fun _ => true) 0 0 0 0 0 0
    4 4 4 0 0 0 1 0 0 (10 : Nat) 0

/-- A host that grants every allocation. -/
def generousHost : Nat → Bool := fun _ => true

/-- The device `largeDevice` without native double precision. -/
def noDoubleDevice : BlasBase :=
  { largeDevice with isDevSupportDoublePrecision := false }

/-! ## Lemmas on the machine arithmetic -/

theorem addSz_le (a b : Nat) : addSz a b ≤ a + b := Nat.mod_le _ _

theorem mulSz_le (a b : Nat) : mulSz a b ≤ a * b := Nat.mod_le _ _

theorem toSizeT_le (a : Nat) : toSizeT a ≤ a := Nat.mod_le _ _

theorem addSz_eq {a b : Nat} (h : a + b < 2 ^ 64) : addSz a b = a + b :=
  Nat.mod_eq_of_lt h

theorem mulSz_eq {a b : Nat} (h : a * b < 2 ^ 64) : mulSz a b = a * b :=
  Nat.mod_eq_of_lt h

theorem toSizeT_eq {a : Nat} (h : a < 2 ^ 64) : toSizeT a = a :=
  Nat.mod_eq_of_lt h

theorem subSz_one {n : Nat} (h1 : 1 ≤ n) (h2 : n < 2 ^ 64) : subSz n 1 = n - 1 := by
  unfold subSz
  norm_num at h2 ⊢
  omega

theorem mulSz_absSz (a : Nat) (i : Int) :
    mulSz a (absSz i) = (a * i.natAbs) % 2 ^ 64 := by
  unfold mulSz absSz toSizeT
  rw [Nat.mul_mod, Nat.mod_mod, ← Nat.mul_mod]

/-- The packed element count of the source never exceeds `N·(N+1)/2`. -/
theorem codePacked_le (n : Nat) : mulSz n (addSz n 1) / 2 ≤ packedElems n := by
  unfold packedElems
  apply Nat.div_le_div_right
  calc mulSz n (addSz n 1) ≤ n * addSz n 1 := mulSz_le _ _
    _ ≤ n * (n + 1) := Nat.mul_le_mul_left _ (addSz_le _ _)

/-- The packed element count of the source is `N·(N+1)/2` when the product does
not wrap. -/
theorem codePacked_eq {n : Nat} (h : n * (n + 1) < 2 ^ 64) :
    mulSz n (addSz n 1) / 2 = packedElems n := by
  unfold packedElems
  have h1 : n + 1 < 2 ^ 64 := by
    rcases Nat.eq_zero_or_pos n with h0 | h0
    · subst h0; norm_num
    · exact lt_of_le_of_lt (Nat.le_mul_of_pos_left _ h0) h
  rw [addSz_eq h1, mulSz_eq h]

/-- The vector extent of the source never exceeds `1 + (N-1)·|inc|` for
`1 ≤ N < 2 ^ 64`. -/
theorem codeVector_le {n : Nat} (inc : Int) (h1 : 1 ≤ n) (h2 : n < 2 ^ 64) :
    addSz 1 (mulSz (subSz n 1) (absSz inc)) ≤ vectorElems n inc := by
  unfold vectorElems
  rw [subSz_one h1 h2, mulSz_absSz]
  calc addSz 1 ((n - 1) * inc.natAbs % 2 ^ 64)
      ≤ 1 + (n - 1) * inc.natAbs % 2 ^ 64 := addSz_le _ _
    _ ≤ 1 + (n - 1) * inc.natAbs := Nat.add_le_add_left (Nat.mod_le _ _) _

/-- The vector extent of the source is `1 + (N-1)·|inc|` when nothing wraps. -/
theorem codeVector_eq {n : Nat} (inc : Int) (h1 : 1 ≤ n) (h2 : n < 2 ^ 64)
    (h : vectorElems n inc < 2 ^ 64) :
    addSz 1 (mulSz (subSz n 1) (absSz inc)) = vectorElems n inc := by
  unfold vectorElems at h ⊢
  have h3 : (n - 1) * inc.natAbs < 2 ^ 64 := by omega
  rw [subSz_one h1 h2, mulSz_absSz, Nat.mod_eq_of_lt h3, addSz_eq h]

theorem packedElems_mono {m n : Nat} (h : m ≤ n) : packedElems m ≤ packedElems n := by
  unfold packedElems
  exact Nat.div_le_div_right (Nat.mul_le_mul h (Nat.succ_le_succ h))

theorem vectorElems_mono {m n : Nat} (inc : Int) (h : m ≤ n) :
    vectorElems m inc ≤ vectorElems n inc := by
  unfold vectorElems
  exact Nat.add_le_add_left (Nat.mul_le_mul_right _ (Nat.sub_le_sub_right h 1)) _

theorem le_vectorElems {n : Nat} {inc : Int} (h1 : 1 ≤ n) (hi : inc ≠ 0) :
    n ≤ vectorElems n inc := by
  unfold vectorElems
  have h : 1 ≤ inc.natAbs := Nat.one_le_iff_ne_zero.mpr (Int.natAbs_ne_zero.mpr hi)
  calc n = 1 + (n - 1) * 1 := by omega
    _ ≤ 1 + (n - 1) * inc.natAbs := Nat.add_le_add_left (Nat.mul_le_mul_left _ h) _

theorem le_packedElems (n : Nat) : n ≤ packedElems n := by
  unfold packedElems
  rw [Nat.le_div_iff_mul_le (by norm_num)]
  rcases Nat.eq_zero_or_pos n with h0 | h0
  · subst h0; norm_num
  · calc n * 2 ≤ n * (n + 1) := Nat.mul_le_mul_left _ (by omega)

theorem sizeof_pos (E : ElemType) : 1 ≤ E.sizeof := by
  cases E <;> simp [ElemType.sizeof]

/-- The loop only appends dispatches, at most one per iteration. -/
theorem dispatchLoop_steps (st : DeviceStatuses) (d : HpmvDispatch) :
    ∀ (remaining i : Nat) (steps : List PerfStep),
      ∃ k, k ≤ remaining ∧
        (dispatchLoop st d remaining i steps).2
          = steps ++ List.replicate k (PerfStep.hpmv d) := by
  intro remaining
  induction remaining with
  | zero =>
    intro i steps
    exact ⟨0, le_refl _, by simp [dispatchLoop]⟩
  | succ r ih =>
    intro i steps
    by_cases hs : st.hpmv i = CL_SUCCESS
    · obtain ⟨k, hk, he⟩ := ih (i + 1) (steps ++ [PerfStep.hpmv d])
      refine ⟨k + 1, Nat.succ_le_succ hk, ?_⟩
      simp only [dispatchLoop, hs, ne_eq, not_true_eq_false, if_false]
      rw [he, List.append_assoc, List.replicate_succ]
      rfl
    · refine ⟨1, Nat.succ_le_succ (Nat.zero_le _), ?_⟩
      simp [dispatchLoop, hs]

/-- When every dispatch succeeds the loop runs all its iterations. -/
theorem dispatchLoop_success (st : DeviceStatuses) (d : HpmvDispatch) :
    ∀ (remaining i : Nat) (steps : List PerfStep),
      (∀ j, i ≤ j → j < i + remaining → st.hpmv j = CL_SUCCESS) →
      dispatchLoop st d remaining i steps
        = (true, steps ++ List.replicate remaining (PerfStep.hpmv d)) := by
  intro remaining
  induction remaining with
  | zero =>
    intro i steps _
    simp [dispatchLoop]
  | succ r ih =>
    intro i steps h
    have hs : st.hpmv i = CL_SUCCESS := h i (le_refl _) (by omega)
    simp only [dispatchLoop, hs, ne_eq, not_true_eq_false, if_false]
    rw [ih (i + 1) _ (fun j h1 h2 => h j (by omega) (by omega)),
      List.append_assoc, List.replicate_succ]
    rfl

theorem filter_isWrite_replicate (k : Nat) (d : HpmvDispatch) :
    (List.replicate k (PerfStep.hpmv d)).filter PerfStep.isWrite = [] := by
  induction k with
  | zero => rfl
  | succ k ih => simp [List.replicate_succ, List.filter_cons, PerfStep.isWrite, ih]

theorem subSz_of_le {a b : Nat} (h1 : b ≤ a) (h2 : a < 2 ^ 64) :
    subSz (toSizeT a) (toSizeT b) = a - b := by
  have hb : b < 2 ^ 64 := lt_of_le_of_lt h1 h2
  rw [toSizeT_eq h2, toSizeT_eq hb]
  unfold subSz
  norm_num at h2 hb ⊢
  omega

theorem dispatchCount_replicate (k : Nat) (d : HpmvDispatch) :
    (List.replicate k (PerfStep.hpmv d)).filter PerfStep.isDispatch
      = List.replicate k (PerfStep.hpmv d) := by
  induction k with
  | zero => rfl
  | succ k ih => simp [List.replicate_succ, List.filter_cons, PerfStep.isDispatch, ih]

theorem newArray_eq_some {host : Nat → Bool} {sz count a : Nat}
    (h : newArray host sz count = some a) :
    a = count ∧ count * sz < 2 ^ 64 ∧ host (count * sz) = true := by
  unfold newArray at h
  split at h
  · rename_i hc
    exact ⟨(Option.some.inj h).symm, hc.1, hc.2⟩
  · exact absurd h (by simp)

/-- A constructor that returns leaves the object of the member initialisation,
and the byte size of `AP_` was representable. -/
theorem construct_eq_some {host : Nat → Bool} {E : ElemType} {fn : BlasFunction}
    {p : TestParams} {t : HpmvPerformanceTest}
    (h : HpmvPerformanceTest.construct host E fn p = some t) :
    t = HpmvPerformanceTest.ctor fn p ∧
    addSz (mulSz p.N (addSz p.N 1) / 2) p.offA * E.sizeof < 2 ^ 64 := by
  unfold HpmvPerformanceTest.construct at h
  simp only at h
  split at h
  · exact absurd h (by simp)
  · rename_i a ha
    split at h
    · exact absurd h (by simp)
    · rename_i x hx
      split at h
      · exact absurd h (by simp)
      · rename_i y hy
        split at h
        · exact absurd h (by simp)
        · rename_i b hb
          obtain ⟨ea, la, _⟩ := newArray_eq_some ha
          obtain ⟨ex, _, _⟩ := newArray_eq_some hx
          obtain ⟨ey, _, _⟩ := newArray_eq_some hy
          have eb : y = b := Option.some.inj hb
          subst ea ex ey eb
          exact ⟨(Option.some.inj h).symm, la⟩

/-- The element counts the constructor allocates, when nothing wraps. -/
theorem ctor_lengths_exact (fn : BlasFunction) (p : TestParams) (hN : 1 ≤ p.N)
    (hw : NoWrap p) :
    (HpmvPerformanceTest.ctor fn p).AP_ = some (packedElems p.N + p.offA) ∧
    (HpmvPerformanceTest.ctor fn p).X_ = some (vectorElems p.N p.incx + p.offBX) ∧
    (HpmvPerformanceTest.ctor fn p).Y_ = some (vectorElems p.N p.incy + p.offCY) ∧
    (HpmvPerformanceTest.ctor fn p).backY_
      = some (vectorElems p.N p.incy + p.offCY) := by
  obtain ⟨h1, h2, h3, h4⟩ := hw
  have hn : p.N < 2 ^ 64 := lt_of_le_of_lt (Nat.le_mul_of_pos_right _ (by omega)) h1
  have hx : vectorElems p.N p.incx < 2 ^ 64 := by omega
  have hy : vectorElems p.N p.incy < 2 ^ 64 := by omega
  simp only [HpmvPerformanceTest.ctor, codePacked_eq h1, codeVector_eq _ hN hn hx,
    codeVector_eq _ hN hn hy, addSz_eq h2, addSz_eq h3, addSz_eq h4, and_self]

/-! ## Theorems: `xSyr<T>` -/

/-- C1 as stated fails on the code: for `D = 2` and `lda = 2^61` the `exit(1)`
condition does not hold, yet `setup_buffer` of `xSyr<cl_float>` does not
succeed: `new T[buffer.N * buffer.lda]` is asked for `2^62` elements of 4 bytes,
which is not representable in `size_t`, and throws, even on a host that grants
every allocation. -/
theorem setup_buffer_allocation_counterexample :
    ¬ ((2 ^ 61 : Nat) ≠ 0 ∧ (2 ^ 61 : Nat) < 2) ∧
    (setup_buffer SyrElem.cl_float (fun _ => true) generousHost 0 0 0 0 0 0
        2 2 2 (2 ^ 61) 0 0 0 0 0 (1 : Nat) 0).threw = true ∧
    (setup_buffer SyrElem.cl_float (fun _ => true) generousHost 0 0 0 0 0 0
        2 2 2 (2 ^ 61) 0 0 0 0 0 (1 : Nat) 0).failed = false ∧
    (setup_buffer SyrElem.cl_float (fun _ => true) generousHost 0 0 0 0 0 0
        2 2 2 (2 ^ 61) 0 0 0 0 0 (1 : Nat) 0).storedLda = none := by
  decide

/-- C1 as amended: in `xSyr<T>::setup_buffer`, with `D` the dimension stored in
`buffer.N` and `lda` the requested leading dimension, the `exit(1)` branch is
taken exactly when `lda` is non-zero and smaller than `D`.  Otherwise the
function goes on to its two host allocations, `new T[D]` and
`new T[D * lda']` with `lda'` equal to `D` for `lda = 0` and to the requested
`lda` for `lda ≥ D`: when both return it succeeds and stores `D` in `buffer.N`
and `lda'` in `buffer.lda`, and when one of them throws it is left by that
exception.  Every successful outcome stores these values. -/
theorem setup_buffer_lda_contract {S : Type} (T : SyrElem) (ctx host : Nat → Bool)
    (order_option side_option uplo_option diag_option transA_option
      transB_option : Int)
    (D N K lda ldb ldc offA offB offC : Nat) (alpha beta : S) :
    ((setup_buffer T ctx host order_option side_option uplo_option diag_option
        transA_option transB_option D N K lda ldb ldc offA offB offC alpha
        beta) = Outcome.exit 1 ↔ (lda ≠ 0 ∧ lda < D)) ∧
    ((setup_buffer T ctx host order_option side_option uplo_option diag_option
        transA_option transB_option D N K lda ldb ldc offA offB offC alpha
        beta).failed = true ↔ (lda ≠ 0 ∧ lda < D)) ∧
    (¬ (lda ≠ 0 ∧ lda < D) →
      (newArray host T.sizeof D).isSome = true →
      (newArray host T.sizeof (mulSz D (if lda = 0 then D else lda))).isSome = true →
      ∃ b, (setup_buffer T ctx host order_option side_option uplo_option
              diag_option transA_option transB_option D N K lda ldb ldc offA offB
              offC alpha beta) = Outcome.ok b ∧
           b.N = D ∧ b.lda = (if lda = 0 then D else lda)) ∧
    (¬ (lda ≠ 0 ∧ lda < D) →
      ((newArray host T.sizeof D).isSome = false ∨
       (newArray host T.sizeof (mulSz D (if lda = 0 then D else lda))).isSome
          = false) →
      (setup_buffer T ctx host order_option side_option uplo_option diag_option
        transA_option transB_option D N K lda ldb ldc offA offB offC alpha
        beta) = Outcome.throws) ∧
    (∀ b, (setup_buffer T ctx host order_option side_option uplo_option
            diag_option transA_option transB_option D N K lda ldb ldc offA offB
            offC alpha beta) = Outcome.ok b →
      b.N = D ∧ b.lda = (if lda = 0 then D else lda)) := by
  unfold setup_buffer
  by_cases h0 : lda = 0
  · subst h0
    simp only [if_true, ne_eq, not_true_eq_false, false_and, iff_false, not_false_eq_true,
      true_implies]
    cases hX : newArray host T.sizeof D with
    | none => simp [Outcome.failed]
    | some x =>
      cases hA : newArray host T.sizeof (mulSz D D) with
      | none => simp [Outcome.failed]
      | some a => simp [Outcome.failed]
  · by_cases hlt : lda < D
    · simp [Outcome.failed, h0, hlt]
    · simp only [h0, hlt, if_false, ne_eq, not_false_eq_true, and_false, iff_false,
        true_implies]
      cases hX : newArray host T.sizeof D with
      | none => simp [Outcome.failed]
      | some x =>
        cases hA : newArray host T.sizeof (mulSz D lda) with
        | none => simp [Outcome.failed]
        | some a => simp [Outcome.failed]

/-- Witness of C1 as amended: `D = 4` with `lda = 0` on a host that grants every
allocation succeeds and stores `lda = 4`. -/
theorem setup_buffer_lda_contract_witness :
    ∃ b, (setup_buffer SyrElem.cl_float (fun _ => true) generousHost 0 0 0 0 0 0
            4 4 4 0 0 0 0 0 0 (1 : Nat) 0) = Outcome.ok b ∧
         b.N = 4 ∧ b.lda = 4 :=
  (setup_buffer_lda_contract SyrElem.cl_float (fun _ => true) generousHost
    0 0 0 0 0 0 4 4 4 0 0 0 0 0 0 (1 : Nat) 0).2.2.1 (by decide) (by decide)
    (by decide)

/-- C10, evaluated on the code: the double-precision specialisation
`xSyr<cl_double>::call_func` dispatches `clblasSsyr`, the single-precision
routine, and not the double-precision routine `clblasDsyr` that matches its
element type; the single-precision specialisation dispatches `clblasSsyr`. -/
theorem call_func_double_dispatches_Ssyr {S : Type} (buffer : xSyrBuffer S) :
    invokedRoutine (call_func SyrElem.cl_double buffer)
      = some SyrRoutine.clblasSsyr ∧
    invokedRoutine (call_func SyrElem.cl_double buffer)
      ≠ some (matchingRoutine SyrElem.cl_double) ∧
    invokedRoutine (call_func SyrElem.cl_float buffer)
      = some (matchingRoutine SyrElem.cl_float) := by
  refine ⟨rfl, ?_, rfl⟩
  simp [call_func, invokedRoutine, matchingRoutine]

/-- C12, evaluated on the code: after `setup_buffer` of `xSyr<cl_float>` with
`M = 4`, `lda = 0`, `offA = 1`, the device buffer `A` has 64 bytes and `cpuA` has
16 elements; the write of `A` issued by `initialize_gpu_buffer` and by
`reset_gpu_write_buffer` starts at byte 4 and is 64 bytes long, so it ends at
byte 68, outside the device buffer, while the 64 bytes it reads from `cpuA` lie
inside that array. -/
theorem offset_write_leaves_device_buffer :
    offsetSetup.failed = false ∧
    offsetSetup.buffer?.map (fun b => b.A)
      = some (some ⟨64, MemFlags.CL_MEM_READ_ONLY⟩) ∧
    offsetSetup.buffer?.map (fun b => b.cpuA) = some 16 ∧
    offsetSetup.buffer?.bind
        (fun b => writeOfA (initialize_gpu_buffer SyrElem.cl_float b))
      = some { buffer := some ⟨64, MemFlags.CL_MEM_READ_ONLY⟩, blocking := true,
               offset := 4, cb := 64, ptr := SyrHostArray.cpuA, hostElems := 16 } ∧
    offsetSetup.buffer?.bind
        (fun b => writeOfA (reset_gpu_write_buffer SyrElem.cl_float b))
      = offsetSetup.buffer?.bind
        (fun b => writeOfA (initialize_gpu_buffer SyrElem.cl_float b)) ∧
    (offsetSetup.buffer?.bind
        (fun b => writeOfA (initialize_gpu_buffer SyrElem.cl_float b))).map
        SyrWrite.insideDevice = some false ∧
    (offsetSetup.buffer?.bind
        (fun b => writeOfA (initialize_gpu_buffer SyrElem.cl_float b))).map
        (SyrWrite.insideHost SyrElem.cl_float) = some true := by
  decide

/-! ## Theorems: `HpmvPerformanceTest` -/

/-- C3 as stated fails on the code.  With `inc = 0` the vector `X_` for
`N = 5` has one element, fewer than `N`.  With `offBX = 2^64 - 1` the sum wraps:
`X_` for `N = 2` has one element, fewer than `N` and fewer than the two elements
it has for `offBX = 0`; likewise `AP_` for `N = 2`, `offA = 2^64 - 1` has two
elements, fewer than `N·(N+1)/2 = 3` and than the three it has for `offA = 0`.
The product `N·(N+1)` wraps at `N = 2^32`, so `AP_` shrinks from `2^63 - 2^31`
elements at `N = 2^32 - 1` to `2^31`, below `N·(N+1)/2`.  At `N = 0` the factor
`N - 1` wraps: with `inc = 2`, `X_` has `2^64 - 1` elements, more than the one
element it has at `N = 1`. -/
theorem ctor_lengths_counterexample :
    hostLen (HpmvPerformanceTest.ctor BlasFunction.FN_CHPMV
        (hpmvParams 5 0 0 0 0 0)).X_ = 1 ∧
    hostLen (HpmvPerformanceTest.ctor BlasFunction.FN_CHPMV
        (hpmvParams 5 0 0 0 0 0)).X_ < 5 ∧
    hostLen (HpmvPerformanceTest.ctor BlasFunction.FN_CHPMV
        (hpmvParams 2 0 (2 ^ 64 - 1) 0 1 1)).X_ = 1 ∧
    hostLen (HpmvPerformanceTest.ctor BlasFunction.FN_CHPMV
        (hpmvParams 2 0 (2 ^ 64 - 1) 0 1 1)).X_ < 2 ∧
    hostLen (HpmvPerformanceTest.ctor BlasFunction.FN_CHPMV
        (hpmvParams 2 0 (2 ^ 64 - 1) 0 1 1)).X_
      < hostLen (HpmvPerformanceTest.ctor BlasFunction.FN_CHPMV
        (hpmvParams 2 0 0 0 1 1)).X_ ∧
    hostLen (HpmvPerformanceTest.ctor BlasFunction.FN_CHPMV
        (hpmvParams 2 (2 ^ 64 - 1) 0 0 1 1)).AP_ = 2 ∧
    hostLen (HpmvPerformanceTest.ctor BlasFunction.FN_CHPMV
        (hpmvParams 2 (2 ^ 64 - 1) 0 0 1 1)).AP_ < packedElems 2 ∧
    hostLen (HpmvPerformanceTest.ctor BlasFunction.FN_CHPMV
        (hpmvParams 2 (2 ^ 64 - 1) 0 0 1 1)).AP_
      < hostLen (HpmvPerformanceTest.ctor BlasFunction.FN_CHPMV
        (hpmvParams 2 0 0 0 1 1)).AP_ ∧
    hostLen (HpmvPerformanceTest.ctor BlasFunction.FN_CHPMV
        (hpmvParams (2 ^ 32) 0 0 0 1 1)).AP_ = 2 ^ 31 ∧
    hostLen (HpmvPerformanceTest.ctor BlasFunction.FN_CHPMV
        (hpmvParams (2 ^ 32) 0 0 0 1 1)).AP_ < packedElems (2 ^ 32) ∧
    hostLen (HpmvPerformanceTest.ctor BlasFunction.FN_CHPMV
        (hpmvParams (2 ^ 32) 0 0 0 1 1)).AP_
      < hostLen (HpmvPerformanceTest.ctor BlasFunction.FN_CHPMV
        (hpmvParams (2 ^ 32 - 1) 0 0 0 1 1)).AP_ ∧
    hostLen (HpmvPerformanceTest.ctor BlasFunction.FN_CHPMV
        (hpmvParams 0 0 0 0 2 2)).X_ = 2 ^ 64 - 1 ∧
    hostLen (HpmvPerformanceTest.ctor BlasFunction.FN_CHPMV
        (hpmvParams 1 0 0 0 2 2)).X_
      < hostLen (HpmvPerformanceTest.ctor BlasFunction.FN_CHPMV
        (hpmvParams 0 0 0 0 2 2)).X_ := by
  decide

/-- C3 as amended: for parameters `q` with `N ≥ 1` for which none of the
`size_t` computations of the constructor wraps, the allocated lengths are at
least the logical minimum (`N·(N+1)/2` for `AP_`; `N` for `X_`, `Y_` and `backY_`
when the increment is non-zero), and they do not decrease from `p` to `q` when
`p` has `1 ≤ p.N ≤ q.N`, offsets no larger than those of `q`, and the same
increments. -/
theorem ctor_lengths_minimum_monotone (fn : BlasFunction) (p q : TestParams)
    (hN : 1 ≤ p.N) (hNq : p.N ≤ q.N)
    (hA : p.offA ≤ q.offA) (hX : p.offBX ≤ q.offBX) (hY : p.offCY ≤ q.offCY)
    (hix : p.incx = q.incx) (hiy : p.incy = q.incy) (hw : NoWrap q) :
    (packedElems q.N ≤ hostLen (HpmvPerformanceTest.ctor fn q).AP_ ∧
     (q.incx ≠ 0 → q.N ≤ hostLen (HpmvPerformanceTest.ctor fn q).X_) ∧
     (q.incy ≠ 0 → q.N ≤ hostLen (HpmvPerformanceTest.ctor fn q).Y_) ∧
     (q.incy ≠ 0 → q.N ≤ hostLen (HpmvPerformanceTest.ctor fn q).backY_)) ∧
    (hostLen (HpmvPerformanceTest.ctor fn p).AP_
        ≤ hostLen (HpmvPerformanceTest.ctor fn q).AP_ ∧
     hostLen (HpmvPerformanceTest.ctor fn p).X_
        ≤ hostLen (HpmvPerformanceTest.ctor fn q).X_ ∧
     hostLen (HpmvPerformanceTest.ctor fn p).Y_
        ≤ hostLen (HpmvPerformanceTest.ctor fn q).Y_ ∧
     hostLen (HpmvPerformanceTest.ctor fn p).backY_
        ≤ hostLen (HpmvPerformanceTest.ctor fn q).backY_) := by
  have hq1 : 1 ≤ q.N := le_trans hN hNq
  have mA := packedElems_mono hNq
  have mX := vectorElems_mono p.incx hNq
  have mY := vectorElems_mono p.incy hNq
  rw [hix] at mX
  rw [hiy] at mY
  have hwq := hw
  obtain ⟨w1, w2, w3, w4⟩ := hw
  have hwp : NoWrap p := by
    refine ⟨?_, ?_, ?_, ?_⟩
    · exact lt_of_le_of_lt (Nat.mul_le_mul hNq (Nat.succ_le_succ hNq)) w1
    · omega
    · rw [hix]; omega
    · rw [hiy]; omega
  obtain ⟨qa, qx, qy, qb⟩ := ctor_lengths_exact fn q hq1 hwq
  obtain ⟨pa, px, py, pb⟩ := ctor_lengths_exact fn p hN hwp
  rw [qa, qx, qy, qb, pa, px, py, pb, hix, hiy]
  simp only [hostLen, Option.getD_some]
  refine ⟨⟨by omega, ?_, ?_, ?_⟩, by omega, by omega, by omega, by omega⟩
  · intro hi
    exact le_trans (le_vectorElems hq1 hi) (Nat.le_add_right _ _)
  · intro hi
    exact le_trans (le_vectorElems hq1 hi) (Nat.le_add_right _ _)
  · intro hi
    exact le_trans (le_vectorElems hq1 hi) (Nat.le_add_right _ _)

/-- Witness of C3 as amended: from `N = 3`, no offsets, to `N = 4`, offsets 1, 2
and 3, increments 2 and -3. -/
theorem ctor_lengths_minimum_monotone_witness :
    packedElems 4 ≤ hostLen (HpmvPerformanceTest.ctor BlasFunction.FN_CHPMV
        (hpmvParams 4 1 2 3 2 (-3))).AP_ ∧
    hostLen (HpmvPerformanceTest.ctor BlasFunction.FN_CHPMV
        (hpmvParams 3 0 0 0 2 (-3))).Y_
      ≤ hostLen (HpmvPerformanceTest.ctor BlasFunction.FN_CHPMV
        (hpmvParams 4 1 2 3 2 (-3))).Y_ :=
  have h := ctor_lengths_minimum_monotone BlasFunction.FN_CHPMV
    (hpmvParams 3 0 0 0 2 (-3)) (hpmvParams 4 1 2 3 2 (-3))
    (by decide) (by decide) (by decide) (by decide) (by decide) rfl rfl (by decide)
  ⟨h.1.1, h.2.2.2.1⟩

/-- C4, evaluated on the code: for `N = 2`, `incx = 1`, `incy = 5`, no offsets,
`FloatComplex`, on a device whose maximum single allocation is 32 bytes and
whose global memory is 1000 bytes, `areResourcesSufficient` returns true although
the device buffer `prepare()` requests for `Y` has 48 bytes, more than the
maximum single allocation; on this device, which grants no request above its
limit, `prepare()` then returns -1. -/
theorem gate_accepts_oversized_Y :
    (HpmvPerformanceTest.ctor BlasFunction.FN_CHPMV strideParams).areResourcesSufficient
        ElemType.FloatComplex smallDevice strideParams = true ∧
    requestedBytes HostArray.Y_
        ((HpmvPerformanceTest.ctor BlasFunction.FN_CHPMV strideParams).prepare
          ElemType.FloatComplex smallDevice).steps = some 48 ∧
    smallDevice.maxMemAllocSize < 48 ∧
    ((HpmvPerformanceTest.ctor BlasFunction.FN_CHPMV strideParams).prepare
          ElemType.FloatComplex smallDevice).ret = -1 := by
  decide

/-- C5 as stated fails on the code.  For `N = 2^32`, unit increments and
`FloatComplex` the product `N·(N+1)` wraps, the gate computes a total of
`5·2^34` bytes and returns true on a device with `2^37` bytes of global memory,
although the total byte length as a natural number exceeds `2^37`.  For `N = 0`
and increments 2 the factor `N - 1` wraps and the gate returns false on a
device with limits of 1000 bytes, although every operand length and the total
are below 1000, read as integers or as natural numbers.  The host arrays are
non-NULL in both cases. -/
theorem gate_wraparound_counterexample :
    (HpmvPerformanceTest.ctor BlasFunction.FN_CHPMV
        (hpmvParams (2 ^ 32) 0 0 0 1 1)).hostArraysNonNull ∧
    (HpmvPerformanceTest.ctor BlasFunction.FN_CHPMV
        (hpmvParams (2 ^ 32) 0 0 0 1 1)).areResourcesSufficient
        ElemType.FloatComplex wideDevice (hpmvParams (2 ^ 32) 0 0 0 1 1) = true ∧
    wideDevice.availGlobalMemSize < totalBytes ElemType.FloatComplex (2 ^ 32) 1 1 ∧
    (HpmvPerformanceTest.ctor BlasFunction.FN_CHPMV
        (hpmvParams 0 0 0 0 2 2)).hostArraysNonNull ∧
    (HpmvPerformanceTest.ctor BlasFunction.FN_CHPMV
        (hpmvParams 0 0 0 0 2 2)).areResourcesSufficient
        ElemType.FloatComplex thousandDevice (hpmvParams 0 0 0 0 2 2) = false ∧
    packedBytes ElemType.FloatComplex 0 < thousandDevice.maxMemAllocSize ∧
    vectorBytes ElemType.FloatComplex 0 2 < thousandDevice.maxMemAllocSize ∧
    totalBytes ElemType.FloatComplex 0 2 2 < thousandDevice.availGlobalMemSize ∧
    vectorElemsInt 0 2 * 8 < (thousandDevice.maxMemAllocSize : Int) ∧
    totalBytesInt ElemType.FloatComplex 0 2 2
      < (thousandDevice.availGlobalMemSize : Int) := by
  decide

/-- C5 as amended: with all host arrays non-NULL and `N ≥ 1`,
`areResourcesSufficient` returns false whenever the total byte length of the
three operands exceeds the available global memory, provided `N·(N+1)` and that
total are below `2^64` (nothing wraps); and for device limits that are `size_t`
values it returns true when every operand byte length is strictly below the
maximum single allocation and the total is strictly below the available global
memory. -/
theorem gate_decision_without_wraparound (E : ElemType) (base : BlasBase)
    (self : HpmvPerformanceTest) (params : TestParams)
    (hnn : self.hostArraysNonNull) (hN : 1 ≤ params.N) :
    (params.N * (params.N + 1) < 2 ^ 64 →
      totalBytes E params.N params.incx params.incy < 2 ^ 64 →
      base.availGlobalMemSize < totalBytes E params.N params.incx params.incy →
      self.areResourcesSufficient E base params = false) ∧
    (base.maxMemAllocSize < 2 ^ 64 → base.availGlobalMemSize < 2 ^ 64 →
      packedBytes E params.N < base.maxMemAllocSize →
      vectorBytes E params.N params.incx < base.maxMemAllocSize →
      vectorBytes E params.N params.incy < base.maxMemAllocSize →
      totalBytes E params.N params.incx params.incy < base.availGlobalMemSize →
      self.areResourcesSufficient E base params = true) := by
  obtain ⟨n1, n2, n3, n4⟩ := hnn
  have hs := sizeof_pos E
  constructor
  · intro h1 h2 h3
    have hn : params.N < 2 ^ 64 :=
      lt_of_le_of_lt (Nat.le_mul_of_pos_right _ (by omega)) h1
    have hsum : packedElems params.N + vectorElems params.N params.incx
        + vectorElems params.N params.incy < 2 ^ 64 :=
      lt_of_le_of_lt (Nat.le_mul_of_pos_right _ hs) h2
    have hx : vectorElems params.N params.incx < 2 ^ 64 := by omega
    have hy : vectorElems params.N params.incy < 2 ^ 64 := by omega
    have hax : packedElems params.N + vectorElems params.N params.incx < 2 ^ 64 := by
      omega
    have htot : mulSz
        (addSz (addSz (mulSz (toSizeT params.N) (addSz (toSizeT params.N) 1) / 2)
            (addSz 1 (mulSz (subSz (toSizeT params.N) 1) (absSz params.incx))))
          (addSz 1 (mulSz (subSz (toSizeT params.N) 1) (absSz params.incy))))
        E.sizeof = totalBytes E params.N params.incx params.incy := by
      rw [toSizeT_eq hn, codePacked_eq h1, codeVector_eq _ hN hn hx,
        codeVector_eq _ hN hn hy, addSz_eq hax, addSz_eq hsum]
      exact mulSz_eq h2
    have hg : ¬ totalBytes E params.N params.incx params.incy
        < toSizeT base.availGlobalMemSize :=
      not_lt.mpr (le_trans (toSizeT_le _) (le_of_lt h3))
    simp only [HpmvPerformanceTest.areResourcesSufficient, htot]
    simp [n1, n2, n3, n4, hg]
  · intro ha hg h1 h2 _ h4
    have hn : params.N < 2 ^ 64 := by
      have : params.N ≤ packedBytes E params.N :=
        le_trans (le_packedElems _) (Nat.le_mul_of_pos_right _ hs)
      omega
    have cA := codePacked_le params.N
    have cX := codeVector_le params.incx hN hn
    have cY := codeVector_le params.incy hN hn
    have b1 : mulSz E.sizeof (mulSz (toSizeT params.N) (addSz (toSizeT params.N) 1) / 2)
        < toSizeT base.maxMemAllocSize := by
      rw [toSizeT_eq hn, toSizeT_eq ha]
      refine lt_of_le_of_lt ?_ h1
      unfold packedBytes
      rw [Nat.mul_comm (packedElems params.N)]
      exact le_trans (mulSz_le _ _) (Nat.mul_le_mul_left _ cA)
    have b2 : mulSz (addSz 1 (mulSz (subSz (toSizeT params.N) 1) (absSz params.incx)))
        E.sizeof < toSizeT base.maxMemAllocSize := by
      rw [toSizeT_eq hn, toSizeT_eq ha]
      refine lt_of_le_of_lt ?_ h2
      exact le_trans (mulSz_le _ _) (Nat.mul_le_mul_right _ cX)
    have b3 : mulSz
        (addSz (addSz (mulSz (toSizeT params.N) (addSz (toSizeT params.N) 1) / 2)
            (addSz 1 (mulSz (subSz (toSizeT params.N) 1) (absSz params.incx))))
          (addSz 1 (mulSz (subSz (toSizeT params.N) 1) (absSz params.incy))))
        E.sizeof < toSizeT base.availGlobalMemSize := by
      rw [toSizeT_eq hn, toSizeT_eq hg]
      refine lt_of_le_of_lt ?_ h4
      refine le_trans (mulSz_le _ _) (Nat.mul_le_mul_right _ ?_)
      refine le_trans (addSz_le _ _) (Nat.add_le_add ?_ cY)
      exact le_trans (addSz_le _ _) (Nat.add_le_add cA cX)
    simp only [HpmvPerformanceTest.areResourcesSufficient]
    simp [n1, n2, n3, n4, b1, b2, b3]

/-- Witness of C5 as amended: `N = 4` with unit increments (144 bytes in total)
is rejected by a device with 50 bytes of global memory and accepted by a device
with limits of 1000 bytes. -/
theorem gate_decision_without_wraparound_witness :
    (HpmvPerformanceTest.ctor BlasFunction.FN_CHPMV
        unitParams).areResourcesSufficient ElemType.FloatComplex
        { smallDevice with availGlobalMemSize := 50 } unitParams = false ∧
    (HpmvPerformanceTest.ctor BlasFunction.FN_CHPMV
        unitParams).areResourcesSufficient ElemType.FloatComplex
        thousandDevice unitParams = true :=
  ⟨(gate_decision_without_wraparound ElemType.FloatComplex
      { smallDevice with availGlobalMemSize := 50 }
      (HpmvPerformanceTest.ctor BlasFunction.FN_CHPMV unitParams) unitParams
      (by decide) (by decide)).1 (by decide) (by decide) (by decide),
   (gate_decision_without_wraparound ElemType.FloatComplex thousandDevice
      (HpmvPerformanceTest.ctor BlasFunction.FN_CHPMV unitParams) unitParams
      (by decide) (by decide)).2 (by decide) (by decide) (by decide) (by decide)
      (by decide) (by decide)⟩

/-- C6 as stated fails on the code: for `FN_ZHPMV` on a device without double
precision and `N = 2^32 - 1` with `DoubleComplex`, the constructor of `perfCase`
asks `new` for `2^63 - 2^31` elements of 16 bytes and throws, even on a host
that grants every allocation; `runInstance` is left by that exception before
the double-precision test, so the case does not end as a skip. -/
theorem runInstance_constructor_throws_counterexample :
    noDoubleDevice.isDevSupportDoublePrecision = false ∧
    HpmvPerformanceTest.construct generousHost ElemType.DoubleComplex
        BlasFunction.FN_ZHPMV (hpmvParams (2 ^ 32 - 1) 0 0 0 1 1) = none ∧
    (HpmvPerformanceTest.runInstance generousHost ElemType.DoubleComplex
        noDoubleDevice (fun t _ => (t, 0)) BlasFunction.FN_ZHPMV
        (hpmvParams (2 ^ 32 - 1) 0 0 0 1 1)).events
      = [RunEvent.constructorThrows] ∧
    (HpmvPerformanceTest.runInstance generousHost ElemType.DoubleComplex
        noDoubleDevice (fun t _ => (t, 0)) BlasFunction.FN_ZHPMV
        (hpmvParams (2 ^ 32 - 1) 0 0 0 1 1)).perfCase = none := by
  decide

/-- C6 as amended: in `runInstance`, for every function tag and `TestParams` for
which the constructor of `perfCase` returns, whenever `areResourcesSufficient`
returns false, or the function is `FN_ZHPMV` and the device lacks double
precision, the case ends as a skip: the only event is one of the two skip
messages, `run` is not invoked, neither `ASSERT_GE` nor `EXPECT_EQ` is
evaluated, and the three device handles of the test object are still NULL. -/
theorem runInstance_skips (host : Nat → Bool) (E : ElemType) (base : BlasBase)
    (run : HpmvPerformanceTest → Int → HpmvPerformanceTest × Int)
    (fn : BlasFunction) (params : TestParams) (t : HpmvPerformanceTest)
    (hc : HpmvPerformanceTest.construct host E fn params = some t)
    (h : t.areResourcesSufficient E base params = false ∨
         (fn = BlasFunction.FN_ZHPMV ∧ base.isDevSupportDoublePrecision = false)) :
    ((HpmvPerformanceTest.runInstance host E base run fn params).events
        = [RunEvent.warnNoDoublePrecision] ∨
     (HpmvPerformanceTest.runInstance host E base run fn params).events
        = [RunEvent.skipInsufficientResources]) ∧
    (∀ k, RunEvent.run k ∉
        (HpmvPerformanceTest.runInstance host E base run fn params).events) ∧
    (∀ b, RunEvent.assertGE b ∉
        (HpmvPerformanceTest.runInstance host E base run fn params).events) ∧
    (∀ b, RunEvent.expectEQ b ∉
        (HpmvPerformanceTest.runInstance host E base run fn params).events) ∧
    RunEvent.constructorThrows ∉
        (HpmvPerformanceTest.runInstance host E base run fn params).events ∧
    (HpmvPerformanceTest.runInstance host E base run fn params).perfCase = some t ∧
    t.mobjAP_ = none ∧ t.mobjX_ = none ∧ t.mobjY_ = none := by
  have ht := (construct_eq_some hc).1
  have hm : t.mobjAP_ = none ∧ t.mobjX_ = none ∧ t.mobjY_ = none := by
    rw [ht]
    exact ⟨rfl, rfl, rfl⟩
  unfold HpmvPerformanceTest.runInstance
  rw [hc]
  by_cases hz : fn = BlasFunction.FN_ZHPMV ∧ base.isDevSupportDoublePrecision = false
  · simp [hz, hm]
  · have hr : t.areResourcesSufficient E base params = false := by
      rcases h with h | h
      · exact h
      · exact absurd h hz
    simp only [hz, hr, if_false, if_true]
    simp [hm]

/-- Witness of C6 as amended: `strideParams` on a device without enough global
memory, on a host that grants every allocation, is skipped whatever `run` would
do. -/
theorem runInstance_skips_witness :
    (HpmvPerformanceTest.runInstance generousHost ElemType.FloatComplex
        { smallDevice with availGlobalMemSize := 50 }
        (fun t _ => (t, -1)) BlasFunction.FN_CHPMV strideParams).events
      = [RunEvent.skipInsufficientResources] := by
  have h := runInstance_skips generousHost ElemType.FloatComplex
    { smallDevice with availGlobalMemSize := 50 } (fun t _ => (t, -1))
    BlasFunction.FN_CHPMV strideParams
    (HpmvPerformanceTest.ctor BlasFunction.FN_CHPMV strideParams)
    (by decide) (Or.inl (by decide))
  rcases h.1 with h1 | h1
  · exact absurd h1 (by decide)
  · exact h1

/-- C7 as stated fails on the code: for the prepared test object of `unitParams`
with every device call succeeding, one call of `clblasPerfSingle` issues the
reset write once, then 20 dispatches back to back; the device commands are the
write, the wait, 20 dispatches and `clFinish`, so the second dispatch is
preceded by another dispatch and not by the write. -/
theorem reset_before_each_dispatch_counterexample :
    deviceCommands
        (preparedCase.clblasPerfSingle 0 ElemType.FloatComplex allSucceed 0 2000).steps
      = [resetWrite ElemType.FloatComplex preparedCase, PerfStep.clWaitForEvents 1]
          ++ List.replicate 20 (perfDispatch preparedCase) ++ [PerfStep.clFinish] ∧
    dispatchCount
        (preparedCase.clblasPerfSingle 0 ElemType.FloatComplex allSucceed 0 2000).steps
      = 20 ∧
    writeCount
        (preparedCase.clblasPerfSingle 0 ElemType.FloatComplex allSucceed 0 2000).steps
      = 1 ∧
    resetBeforeEachDispatch (resetWrite ElemType.FloatComplex preparedCase)
        (deviceCommands
          (preparedCase.clblasPerfSingle 0 ElemType.FloatComplex allSucceed 0
            2000).steps)
      = false := by
  decide

/-- C7 as amended: in `clblasPerfSingle` the operand `Y` is reset from `backY_`
once per call, before the timed loop.  The first step is the blocking write of
`backY_` (`(lenY + offCY) · sizeof(ElemType)` bytes at offset 0) into `mobjY_`, it
is the only write of the call, and when every call succeeds the steps are that
write, the wait on its event, the first clock reading, 20 hpmv dispatches with
nothing in between, `clFinish` and the second clock reading. -/
theorem single_reset_before_timed_loop (NANOTIME_ERR : Nat) (E : ElemType)
    (self : HpmvPerformanceTest) (st : DeviceStatuses) (t0 t1 : Nat) :
    (self.clblasPerfSingle NANOTIME_ERR E st t0 t1).steps.head?
      = some (resetWrite E self) ∧
    writeCount (self.clblasPerfSingle NANOTIME_ERR E st t0 t1).steps = 1 ∧
    (st.clEnqueueWriteBuffer = CL_SUCCESS → st.clWaitForEvents = CL_SUCCESS →
      (∀ i, 1 ≤ i → i ≤ 20 → st.hpmv i = CL_SUCCESS) →
      (self.clblasPerfSingle NANOTIME_ERR E st t0 t1).steps
        = [resetWrite E self, PerfStep.clWaitForEvents 1, PerfStep.getCurrentTime]
            ++ List.replicate 20 (perfDispatch self)
            ++ [PerfStep.clFinish, PerfStep.getCurrentTime]) := by
  by_cases hw : st.clEnqueueWriteBuffer = CL_SUCCESS
  · by_cases he : st.clWaitForEvents = CL_SUCCESS
    · obtain ⟨k, _, hk⟩ := dispatchLoop_steps st
        { order := self.params_.order, uplo := self.params_.uplo, N := self.params_.N,
          AP := self.mobjAP_, offA := self.params_.offA,
          X := self.mobjX_, offBX := self.params_.offBX, incx := self.params_.incx,
          Y := self.mobjY_, offCY := self.params_.offCY, incy := self.params_.incy,
          numCommandQueues := 1, numEventsInWaitList := 0 } 20 1
        [resetWrite E self, PerfStep.clWaitForEvents 1, PerfStep.getCurrentTime]
      refine ⟨?_, ?_, ?_⟩
      · simp only [HpmvPerformanceTest.clblasPerfSingle, hw, he, ne_eq,
          not_true_eq_false, if_false]
        split
        · simp only []
          erw [hk]
          rfl
        · simp only []
          erw [hk]
          rfl
      · simp only [HpmvPerformanceTest.clblasPerfSingle, hw, he, ne_eq,
          not_true_eq_false, if_false]
        split
        · simp only []
          erw [hk]
          simp [writeCount, List.filter_append, filter_isWrite_replicate, resetWrite,
            List.filter_cons, PerfStep.isWrite]
        · simp only []
          erw [hk]
          simp [writeCount, List.filter_append, filter_isWrite_replicate, resetWrite,
            List.filter_cons, PerfStep.isWrite]
      · intro _ _ hall
        have hl := dispatchLoop_success st
          { order := self.params_.order, uplo := self.params_.uplo,
            N := self.params_.N,
            AP := self.mobjAP_, offA := self.params_.offA,
            X := self.mobjX_, offBX := self.params_.offBX, incx := self.params_.incx,
            Y := self.mobjY_, offCY := self.params_.offCY, incy := self.params_.incy,
            numCommandQueues := 1, numEventsInWaitList := 0 } 20 1
          [resetWrite E self, PerfStep.clWaitForEvents 1, PerfStep.getCurrentTime]
          (fun j h1 h2 => hall j h1 (by omega))
        simp only [HpmvPerformanceTest.clblasPerfSingle, hw, he, ne_eq,
          not_true_eq_false, if_false]
        erw [hl]
        rfl
    · refine ⟨?_, ?_, fun _ h => absurd h he⟩
      · simp [HpmvPerformanceTest.clblasPerfSingle, hw, he, resetWrite]
      · simp [HpmvPerformanceTest.clblasPerfSingle, hw, he, writeCount,
          List.filter_cons, PerfStep.isWrite]
  · refine ⟨?_, ?_, fun h => absurd h hw⟩
    · simp [HpmvPerformanceTest.clblasPerfSingle, hw, resetWrite]
    · simp [HpmvPerformanceTest.clblasPerfSingle, hw, writeCount,
        List.filter_cons, PerfStep.isWrite]

/-- Witness of C7 as amended: the prepared test object of `unitParams` with every
device call succeeding. -/
theorem single_reset_before_timed_loop_witness :
    (preparedCase.clblasPerfSingle 0 ElemType.FloatComplex allSucceed 0 2000).steps
      = [resetWrite ElemType.FloatComplex preparedCase, PerfStep.clWaitForEvents 1,
          PerfStep.getCurrentTime]
          ++ List.replicate 20 (perfDispatch preparedCase)
          ++ [PerfStep.clFinish, PerfStep.getCurrentTime] :=
  (single_reset_before_timed_loop 0 ElemType.FloatComplex preparedCase allSucceed
    0 2000).2.2 rfl rfl (fun _ _ _ => rfl)

/-- C8, evaluated on the code: when every device call succeeds except the final
`clFinish`, which returns -36, `clblasPerfSingle` does not return `NANOTIME_ERR`
but the averaged time: 100 for clock readings 0 and 2000, 200 for clock readings
0 and 4000, whatever the value of `NANOTIME_ERR`; all 20 dispatches are issued and
`clFinish` is the last device call. -/
theorem clFinish_status_ignored (NANOTIME_ERR : Nat) :
    (preparedCase.clblasPerfSingle NANOTIME_ERR ElemType.FloatComplex finishFails
        0 2000).time = 100 ∧
    (preparedCase.clblasPerfSingle NANOTIME_ERR ElemType.FloatComplex finishFails
        0 4000).time = 200 ∧
    finishFails.clFinish ≠ CL_SUCCESS ∧
    dispatchCount (preparedCase.clblasPerfSingle NANOTIME_ERR ElemType.FloatComplex
        finishFails 0 2000).steps = 20 ∧
    (deviceCommands (preparedCase.clblasPerfSingle NANOTIME_ERR
        ElemType.FloatComplex finishFails 0 2000).steps).getLast?
      = some PerfStep.clFinish := by
  refine ⟨?_, ?_, by decide, ?_, ?_⟩ <;> rfl

/-- C11: when every device call succeeds, `clblasPerfSingle` performs the reset
write and the wait, reads the clock (`t0`), issues exactly 20 hpmv dispatches,
calls `clFinish`, reads the clock again (`t1`), and returns the `nano_time_t`
quotient `(t1 - t0) / 20`; for clock readings `t0 ≤ t1` the result `r` is the
natural number `(t1 - t0) / 20`, it is non-negative and
`20·r ≤ t1 - t0 < 20·(r + 1)`. -/
theorem perfSingle_average_latency (NANOTIME_ERR : Nat) (E : ElemType)
    (self : HpmvPerformanceTest) (st : DeviceStatuses) (t0 t1 : Nat)
    (hw : st.clEnqueueWriteBuffer = CL_SUCCESS)
    (he : st.clWaitForEvents = CL_SUCCESS)
    (hd : ∀ i, 1 ≤ i → i ≤ 20 → st.hpmv i = CL_SUCCESS)
    (_hf : st.clFinish = CL_SUCCESS) :
    (self.clblasPerfSingle NANOTIME_ERR E st t0 t1).steps
      = [resetWrite E self, PerfStep.clWaitForEvents 1, PerfStep.getCurrentTime]
          ++ List.replicate 20 (perfDispatch self)
          ++ [PerfStep.clFinish, PerfStep.getCurrentTime] ∧
    dispatchCount (self.clblasPerfSingle NANOTIME_ERR E st t0 t1).steps = 20 ∧
    (self.clblasPerfSingle NANOTIME_ERR E st t0 t1).time
      = subSz (toSizeT t1) (toSizeT t0) / 20 ∧
    (t0 ≤ t1 → t1 < 2 ^ 64 →
      (self.clblasPerfSingle NANOTIME_ERR E st t0 t1).time = (t1 - t0) / 20 ∧
      0 ≤ (self.clblasPerfSingle NANOTIME_ERR E st t0 t1).time ∧
      20 * (self.clblasPerfSingle NANOTIME_ERR E st t0 t1).time ≤ t1 - t0 ∧
      t1 - t0 < 20 * ((self.clblasPerfSingle NANOTIME_ERR E st t0 t1).time + 1)) := by
  have hl := dispatchLoop_success st
    { order := self.params_.order, uplo := self.params_.uplo, N := self.params_.N,
      AP := self.mobjAP_, offA := self.params_.offA,
      X := self.mobjX_, offBX := self.params_.offBX, incx := self.params_.incx,
      Y := self.mobjY_, offCY := self.params_.offCY, incy := self.params_.incy,
      numCommandQueues := 1, numEventsInWaitList := 0 } 20 1
    [resetWrite E self, PerfStep.clWaitForEvents 1, PerfStep.getCurrentTime]
    (fun j h1 h2 => hd j h1 (by omega))
  have hsteps : (self.clblasPerfSingle NANOTIME_ERR E st t0 t1).steps
      = [resetWrite E self, PerfStep.clWaitForEvents 1, PerfStep.getCurrentTime]
          ++ List.replicate 20 (perfDispatch self)
          ++ [PerfStep.clFinish, PerfStep.getCurrentTime] := by
    simp only [HpmvPerformanceTest.clblasPerfSingle, hw, he, ne_eq,
      not_true_eq_false, if_false]
    erw [hl]
    rfl
  have htime : (self.clblasPerfSingle NANOTIME_ERR E st t0 t1).time
      = subSz (toSizeT t1) (toSizeT t0) / 20 := by
    simp only [HpmvPerformanceTest.clblasPerfSingle, hw, he, ne_eq,
      not_true_eq_false, if_false]
    erw [hl]
    rfl
  refine ⟨hsteps, ?_, htime, ?_⟩
  · rw [hsteps]
    simp only [dispatchCount, perfDispatch, List.filter_append,
      dispatchCount_replicate]
    rfl
  · intro h01 h1
    rw [htime, subSz_of_le h01 h1]
    refine ⟨rfl, Nat.zero_le _, Nat.mul_div_le _ _, ?_⟩
    exact Nat.lt_mul_div_succ _ (by norm_num)

/-- Witness of C11: the prepared test object of `unitParams`, every call
succeeding, clock readings 1000 and 3010: the result is 100. -/
theorem perfSingle_average_latency_witness :
    (preparedCase.clblasPerfSingle 0 ElemType.FloatComplex allSucceed 1000 3010).time
      = 100 ∧
    20 * 100 ≤ 3010 - 1000 ∧ 3010 - 1000 < 20 * (100 + 1) :=
  have h := (perfSingle_average_latency 0 ElemType.FloatComplex preparedCase
    allSucceed 1000 3010 rfl rfl (fun _ _ _ => rfl) rfl).2.2.2 (by decide) (by decide)
  ⟨h.1, by decide, by decide⟩

/-! ## Theorems: `example_ctrsm.c` -/

/-- C9, evaluated on the code: when `clWaitForEvents` returns -14 and every other
call succeeds, `main` still fetches the result, releases everything and returns
0; the same holds when only `clEnqueueReadBuffer`, only a `clCreateBuffer` or
only a `clEnqueueWriteBuffer` fails. -/
theorem main_returns_zero_on_failed_wait :
    waitFails CtrsmCall.clWaitForEvents ≠ CL_SUCCESS ∧
    (main waitFails).exitCode = 0 ∧
    (main (fun c => if c = CtrsmCall.clEnqueueReadBuffer then -5 else 0)).exitCode = 0 ∧
    (main (fun c => if c = CtrsmCall.clCreateBufferA then -61 else 0)).exitCode = 0 ∧
    (main (fun c => if c = CtrsmCall.clCreateBufferB then -61 else 0)).exitCode = 0 ∧
    (main (fun c => if c = CtrsmCall.clEnqueueWriteBufferA then -5 else 0)).exitCode = 0 ∧
    (main (fun c => if c = CtrsmCall.clEnqueueWriteBufferB then -5 else 0)).exitCode = 0 := by
  decide

end ClBlas
